import Mathlib

/-!
Shallow embedding of the bootstrap core of `src/main.c` (systemd's early
PID-1 entry point): configuration resolution from the kernel command line
and the process arguments, and the bootstrap sequence of `main`.

Conventions of the embedding:
* C strings are `List Char`; `str s` injects a Lean string literal.
* Return codes are `Int`; errno-style failures are negative (`-ENOMEM`,
  `-EINVAL`), exactly as in the C.
* Allocation (strdup/strndup) is modelled by a boolean oracle `alloc`:
  `true` means every allocation succeeds, `false` means allocation fails
  with `-ENOMEM`.
* The global mutable state (`default_unit`, the log subsystem's level and
  target, `action`) is threaded explicitly as a `BootState`; warnings
  emitted by `log_warning` are counted in the state.
* The log-value recognisers `log_set_max_level_from_string` /
  `log_set_target_from_string` live in `log.c`, outside `src/`; they are
  abstracted as a pair of partial functions (`LogParse`), universally
  quantified in the theorems.
-/

namespace Systemd

def str (s : String) : List Char := s.data

def ENOMEM : Int := 12

def EINVAL : Int := 22

/-- Modelled from the spec: the compiled-in fallback target name
(`SPECIAL_DEFAULT_TARGET`, from `special.h`, which is not part of the
sources under verification). -/
def SPECIAL_DEFAULT_TARGET : List Char := str "default.target"

/-- Modelled from the spec: runlevel-1 special target name (`special.h`). -/
def SPECIAL_RUNLEVEL1_TARGET : List Char := str "runlevel1.target"

/-- Modelled from the spec: runlevel-2 special target name (`special.h`). -/
def SPECIAL_RUNLEVEL2_TARGET : List Char := str "runlevel2.target"

/-- Modelled from the spec: runlevel-3 special target name (`special.h`). -/
def SPECIAL_RUNLEVEL3_TARGET : List Char := str "runlevel3.target"

/-- Modelled from the spec: runlevel-4 special target name (`special.h`). -/
def SPECIAL_RUNLEVEL4_TARGET : List Char := str "runlevel4.target"

/-- Modelled from the spec: runlevel-5 special target name (`special.h`). -/
def SPECIAL_RUNLEVEL5_TARGET : List Char := str "runlevel5.target"

/-- The two-valued `action` global of `main.c` (ACTION_RUN / ACTION_HELP). -/
inductive Action where
  | run : Action
  | help : Action
deriving DecidableEq, Repr

/-- The mutable process state touched by configuration resolution:
the `default_unit` global, the log subsystem's max level and target
(set through `log_set_max_level_from_string` /
`log_set_target_from_string`; `none` = still at its compiled default),
the `action` global, and a count of `log_warning` emissions. -/
structure BootState where
  default_unit : List Char
  log_max_level : Option Nat
  log_target : Option Nat
  action : Action
  warnings : Nat
deriving DecidableEq, Repr

/-- The state at program entry: `default_unit = NULL` (modelled as the
empty string), log settings at their compiled defaults, `action = RUN`. -/
def init_state : BootState :=
  { default_unit := [], log_max_level := none, log_target := none,
    action := Action.run, warnings := 0 }

/-- The value recognisers of `log.c` (not under `src/`), abstracted:
`level` models `log_set_max_level_from_string`'s parsing of its argument,
`target` models `log_set_target_from_string`'s; `none` is a parse
failure (a negative return in C). -/
structure LogParse where
  level : List Char → Option Nat
  target : List Char → Option Nat

/-- `startswith(s, p)` of `util.h`: does `s` begin with `p`? -/
def startswith (s p : List Char) : Bool := p.isPrefixOf s

/-- `set_default_unit` (main.c:43-54): strdup the argument — on
allocation failure return `-ENOMEM` with the old `default_unit` still in
place (the copy is made before the old value is freed) — otherwise free
the old value and install the copy, returning 0. -/
def set_default_unit (alloc : Bool) (u : List Char) (st : BootState) :
    Int × BootState :=
  if alloc then (0, { st with default_unit := u })
  else (-ENOMEM, st)

/-- The `rlmap` table of `parse_proc_cmdline_word` (main.c:58-68):
SysV runlevel tokens and their target names, in declaration order. -/
def rlmap : List (List Char × List Char) :=
  [(str "single", SPECIAL_RUNLEVEL1_TARGET),
   (str "-s",     SPECIAL_RUNLEVEL1_TARGET),
   (str "s",      SPECIAL_RUNLEVEL1_TARGET),
   (str "S",      SPECIAL_RUNLEVEL1_TARGET),
   (str "1",      SPECIAL_RUNLEVEL1_TARGET),
   (str "2",      SPECIAL_RUNLEVEL2_TARGET),
   (str "3",      SPECIAL_RUNLEVEL3_TARGET),
   (str "4",      SPECIAL_RUNLEVEL4_TARGET),
   (str "5",      SPECIAL_RUNLEVEL5_TARGET)]

/-- `parse_proc_cmdline_word` (main.c:56-94). Note the faithful `word + 15`
for the `systemd.default=` branch (`List.drop 15`), and `word + 19` /
`word + 18` for the log target/level branches; a failed log-value parse
only logs a warning; an unmatched word falls through to the `rlmap` scan
and, failing that, is ignored with return 0. -/
def parse_proc_cmdline_word (P : LogParse) (alloc : Bool) (word : List Char)
    (st : BootState) : Int × BootState :=
  if startswith word (str "systemd.default=") then
    set_default_unit alloc (word.drop 15) st
  else if startswith word (str "systemd.log_target=") then
    match P.target (word.drop 19) with
    | some t => (0, { st with log_target := some t })
    | none => (0, { st with warnings := st.warnings + 1 })
  else if startswith word (str "systemd.log_level=") then
    match P.level (word.drop 18) with
    | some l => (0, { st with log_max_level := some l })
    | none => (0, { st with warnings := st.warnings + 1 })
  else
    match rlmap.lookup word with
    | some t => set_default_unit alloc t st
    | none => (0, st)

/-- Whitespace characters of `util.h`'s `WHITESPACE` (" \t\n\r"). -/
def isWS (c : Char) : Bool := c = ' ' || c = '\t' || c = '\n' || c = '\r'

/-- Is `c` one of the two quote characters recognised by the splitter? -/
def isQuote (c : Char) : Bool := c = '"' || c = '\''

/-- Modelled from the spec: the quote-aware word splitter behind
`FOREACH_WORD_QUOTED` (`util.h`, not under `src/`). Tokens are maximal
runs of non-whitespace characters, except that a quote character at the
start of a token opens a quoted span — one token up to the matching
quote or the end of the line, quotes stripped. The scanner state is the
pending quote character and the (reversed) current token. -/
def tokenizeGo : List Char → Option Char → List Char → List (List Char)
  | [], none, acc => if acc.isEmpty then [] else [acc.reverse]
  | [], some _, acc => [acc.reverse]
  | c :: cs, none, acc =>
    if isWS c then
      if acc.isEmpty then tokenizeGo cs none []
      else acc.reverse :: tokenizeGo cs none []
    else if isQuote c && acc.isEmpty then
      tokenizeGo cs (some c) []
    else
      tokenizeGo cs none (c :: acc)
  | c :: cs, some q, acc =>
    if c = q then acc.reverse :: tokenizeGo cs none []
    else tokenizeGo cs (some q) (c :: acc)

/-- Modelled from the spec: split one line into quoted words (§4.1). -/
def tokenize (line : List Char) : List (List Char) :=
  tokenizeGo line none []

/-- The `FOREACH_WORD_QUOTED` loop body of `parse_proc_cmdline`
(main.c:108-121): strndup each word (allocation failure is `-ENOMEM` and
aborts), feed it to `parse_proc_cmdline_word`, and stop on the first
negative return. -/
def parse_proc_cmdline_words (P : LogParse) (alloc : Bool) :
    List (List Char) → BootState → Int × BootState
  | [], st => (0, st)
  | w :: ws, st =>
    if alloc then
      let k := parse_proc_cmdline_word P alloc w st
      if k.1 < 0 then k else parse_proc_cmdline_words P alloc ws k.2
    else (-ENOMEM, st)

/-- `parse_proc_cmdline` (main.c:96-128): `none` stands for an unreadable
`/proc/cmdline`, which is only warned about (return 0 with zero words
processed); otherwise the line is split and each word processed. -/
def parse_proc_cmdline (P : LogParse) (alloc : Bool)
    (cmdline : Option (List Char)) (st : BootState) : Int × BootState :=
  match cmdline with
  | none => (0, { st with warnings := st.warnings + 1 })
  | some line => parse_proc_cmdline_words P alloc (tokenize line) st

/-- One processed command-line argument, as classified by `getopt_long`
against the option table of `parse_argv` (main.c:138-144): the three
value-carrying long options, `-h`/`--help`, an unrecognised flag
(getopt's `?`), and a non-option (positional) argument, which GNU
getopt permutes to the end and `parse_argv` rejects after the loop. -/
inductive Arg where
  | argLogLevel : List Char → Arg
  | argLogTarget : List Char → Arg
  | argDefault : List Char → Arg
  | argHelp : Arg
  | argUnknown : Arg
  | argPositional : List Char → Arg
deriving DecidableEq, Repr

/-- The `getopt_long` loop of `parse_argv` (main.c:151-196). `extra`
records that a positional argument was seen (checked after the loop:
`optind < argc` → "Too many arguments" → `-EINVAL`). A bad log level or
target returns the parse error immediately; an unknown option returns
`-EINVAL`; `-h` sets `action = HELP` and continues. -/
def parse_argv_go (P : LogParse) (alloc : Bool) :
    List Arg → Bool → BootState → Int × BootState
  | [], extra, st => if extra then (-EINVAL, st) else (0, st)
  | Arg.argLogLevel v :: rest, extra, st =>
    match P.level v with
    | some l => parse_argv_go P alloc rest extra { st with log_max_level := some l }
    | none => (-EINVAL, st)
  | Arg.argLogTarget v :: rest, extra, st =>
    match P.target v with
    | some t => parse_argv_go P alloc rest extra { st with log_target := some t }
    | none => (-EINVAL, st)
  | Arg.argDefault v :: rest, extra, st =>
    let k := set_default_unit alloc v st
    if k.1 < 0 then k else parse_argv_go P alloc rest extra k.2
  | Arg.argHelp :: rest, extra, st =>
    parse_argv_go P alloc rest extra { st with action := Action.help }
  | Arg.argUnknown :: _, _, st => (-EINVAL, st)
  | Arg.argPositional _ :: rest, _, st => parse_argv_go P alloc rest true st

/-- `parse_argv` (main.c:130-199) on an already-classified argument
vector. -/
def parse_argv (P : LogParse) (alloc : Bool) (args : List Arg)
    (st : BootState) : Int × BootState :=
  parse_argv_go P alloc args false st

/-- Observable milestones of `main`'s bootstrap sequence: printing the
usage text (`help`, main.c:201-211) and each `manager_*` facade call. -/
inductive Event where
  | evHelp : Event
  | evManagerNew : Event
  | evColdplug : Event
  | evLoadUnit : Event
  | evDumpUnits : Event
  | evAddJob : Event
  | evDumpJobs : Event
  | evLoop : Event
deriving DecidableEq, Repr

/-- Return codes of the external manager facade calls (`manager.h`,
outside this core): `manager_new`, `manager_coldplug`,
`manager_load_unit`, `manager_add_job`, `manager_loop`. Negative means
failure, as everywhere in this code base. -/
structure ManagerOracle where
  new_r : Int
  coldplug_r : Int
  load_r : Int
  add_job_r : Int
  loop_r : Int
deriving DecidableEq, Repr

/-- What `main` produces: the process exit status (`retval`), the trace
of observable bootstrap milestones in order, and the final resolved
state. -/
structure MainResult where
  status : Nat
  trace : List Event
  final : BootState
deriving DecidableEq, Repr

/-- `main` (main.c:213-309). `retval` starts at 1; the compiled-in
fallback is installed first, then the kernel command line is resolved,
then the process arguments; a negative return from any of these jumps to
`finish` with status 1. `ACTION_HELP` prints usage and exits 0 before
any manager facade call. Otherwise the manager sequence runs:
new → coldplug → load_unit → dump_units → add_job → dump_jobs → loop,
stopping with status 1 at the first failure; full success exits 0.
Purely external environment steps (mount_setup, signal reset, fd
closing, log_parse_environment, chdir, setsid, umask, D-Bus sigpipe,
log device opening, cleanup) have no effect on the modelled state. -/
def main (P : LogParse) (alloc : Bool) (cmdline : Option (List Char))
    (args : List Arg) (mo : ManagerOracle) : MainResult :=
  let k0 := set_default_unit alloc SPECIAL_DEFAULT_TARGET init_state
  if k0.1 < 0 then ⟨1, [], k0.2⟩ else
  let k1 := parse_proc_cmdline P alloc cmdline k0.2
  if k1.1 < 0 then ⟨1, [], k1.2⟩ else
  let k2 := parse_argv P alloc args k1.2
  if k2.1 < 0 then ⟨1, [], k2.2⟩ else
  if k2.2.action = Action.help then ⟨0, [Event.evHelp], k2.2⟩ else
  if mo.new_r < 0 then ⟨1, [Event.evManagerNew], k2.2⟩ else
  if mo.coldplug_r < 0 then
    ⟨1, [Event.evManagerNew, Event.evColdplug], k2.2⟩ else
  if mo.load_r < 0 then
    ⟨1, [Event.evManagerNew, Event.evColdplug, Event.evLoadUnit], k2.2⟩ else
  if mo.add_job_r < 0 then
    ⟨1, [Event.evManagerNew, Event.evColdplug, Event.evLoadUnit,
         Event.evDumpUnits, Event.evAddJob], k2.2⟩ else
  if mo.loop_r < 0 then
    ⟨1, [Event.evManagerNew, Event.evColdplug, Event.evLoadUnit,
         Event.evDumpUnits, Event.evAddJob, Event.evDumpJobs,
         Event.evLoop], k2.2⟩ else
  ⟨0, [Event.evManagerNew, Event.evColdplug, Event.evLoadUnit,
       Event.evDumpUnits, Event.evAddJob, Event.evDumpJobs,
       Event.evLoop], k2.2⟩

/-- Modelled from the spec: a concrete instance of the log-level
recogniser, accepting the syslog level names used by `log.c`. Used only
to instantiate witnesses and counterexamples. -/
def log_level_model (s : List Char) : Option Nat :=
  if s = str "emerg" then some 0
  else if s = str "alert" then some 1
  else if s = str "crit" then some 2
  else if s = str "err" then some 3
  else if s = str "warning" then some 4
  else if s = str "notice" then some 5
  else if s = str "info" then some 6
  else if s = str "debug" then some 7
  else none

/-- Modelled from the spec: a concrete instance of the log-target
recogniser (console, syslog, kmsg — §6). Used only to instantiate
witnesses and counterexamples. -/
def log_target_model (s : List Char) : Option Nat :=
  if s = str "console" then some 0
  else if s = str "syslog" then some 1
  else if s = str "kmsg" then some 2
  else none

/-- The concrete recogniser pair used by witnesses. -/
def P0 : LogParse := ⟨log_level_model, log_target_model⟩

/-- A manager oracle on which every facade call succeeds. -/
def mo0 : ManagerOracle := ⟨0, 0, 0, 0, 0⟩

/-- The state reached by `main` (all allocations succeeding) after the
compiled-in fallback is installed and the kernel command line resolved —
the state `parse_argv` then runs on. -/
def resolved_cmdline (P : LogParse) (cl : Option (List Char)) : BootState :=
  (parse_proc_cmdline P true cl
    { init_state with default_unit := SPECIAL_DEFAULT_TARGET }).2

/-! ### Helper lemmas: the kernel command line scan -/

theorem set_default_unit_true (u : List Char) (st : BootState) :
    set_default_unit true u st = (0, { st with default_unit := u }) := rfl

/-- Shape analysis of one word of the kernel command line (with all
allocations succeeding): the word's effect is a constant overwrite of
`default_unit`, of `log_target`, or of `log_max_level`, or a warning, or
nothing — always with return code 0. -/
theorem word_shape (P : LogParse) (w : List Char) :
    (∃ u, ∀ st, parse_proc_cmdline_word P true w st =
        (0, { st with default_unit := u }))
    ∨ (∃ t, ∀ st, parse_proc_cmdline_word P true w st =
        (0, { st with log_target := some t }))
    ∨ (∃ l, ∀ st, parse_proc_cmdline_word P true w st =
        (0, { st with log_max_level := some l }))
    ∨ (∀ st, parse_proc_cmdline_word P true w st =
        (0, { st with warnings := st.warnings + 1 }))
    ∨ (∀ st, parse_proc_cmdline_word P true w st = (0, st)) := by
  by_cases h1 : startswith w (str "systemd.default=")
  · exact Or.inl ⟨w.drop 15, fun st => by
      simp [parse_proc_cmdline_word, h1, set_default_unit]⟩
  · by_cases h2 : startswith w (str "systemd.log_target=")
    · cases hv : P.target (w.drop 19) with
      | some t => exact Or.inr (Or.inl ⟨t, fun st => by
          simp [parse_proc_cmdline_word, h1, h2, hv]⟩)
      | none => exact Or.inr (Or.inr (Or.inr (Or.inl (fun st => by
          simp [parse_proc_cmdline_word, h1, h2, hv]))))
    · by_cases h3 : startswith w (str "systemd.log_level=")
      · cases hv : P.level (w.drop 18) with
        | some l => exact Or.inr (Or.inr (Or.inl ⟨l, fun st => by
            simp [parse_proc_cmdline_word, h1, h2, h3, hv]⟩))
        | none => exact Or.inr (Or.inr (Or.inr (Or.inl (fun st => by
            simp [parse_proc_cmdline_word, h1, h2, h3, hv]))))
      · cases hr : rlmap.lookup w with
        | some t => exact Or.inl ⟨t, fun st => by
            simp [parse_proc_cmdline_word, h1, h2, h3, hr, set_default_unit]⟩
        | none => exact Or.inr (Or.inr (Or.inr (Or.inr (fun st => by
            simp [parse_proc_cmdline_word, h1, h2, h3, hr]))))

theorem word_code_zero (P : LogParse) (w : List Char) (st : BootState) :
    (parse_proc_cmdline_word P true w st).1 = 0 := by
  rcases word_shape P w with ⟨u, h⟩ | ⟨t, h⟩ | ⟨l, h⟩ | h | h <;> rw [h st]

theorem word_action_eq (P : LogParse) (a : Bool) (w : List Char)
    (st : BootState) :
    (parse_proc_cmdline_word P a w st).2.action = st.action := by
  cases a
  · unfold parse_proc_cmdline_word set_default_unit
    repeat' split
    all_goals rfl
  · rcases word_shape P w with ⟨u, h⟩ | ⟨t, h⟩ | ⟨l, h⟩ | h | h <;> rw [h st]

/-- With every allocation succeeding, the word loop is a plain left fold
of the word action over the word list, and it returns 0. -/
theorem words_eq_foldl (P : LogParse) (ws : List (List Char))
    (st : BootState) :
    parse_proc_cmdline_words P true ws st =
      (0, ws.foldl (fun s w => (parse_proc_cmdline_word P true w s).2) st) := by
  induction ws generalizing st with
  | nil => rfl
  | cons w ws ih =>
    have h := word_code_zero P w st
    simp only [parse_proc_cmdline_words, if_true, List.foldl_cons]
    rw [if_neg (by rw [h]; exact lt_irrefl 0), ih]

theorem cmdline_code_zero (P : LogParse) (cl : Option (List Char))
    (st : BootState) : (parse_proc_cmdline P true cl st).1 = 0 := by
  cases cl with
  | none => rfl
  | some line =>
    show (parse_proc_cmdline_words P true (tokenize line) st).1 = 0
    rw [words_eq_foldl]

theorem cmdline_state_eq_foldl (P : LogParse) (line : List Char)
    (st : BootState) :
    (parse_proc_cmdline P true (some line) st).2 =
      (tokenize line).foldl
        (fun s w => (parse_proc_cmdline_word P true w s).2) st := by
  show (parse_proc_cmdline_words P true (tokenize line) st).2 = _
  rw [words_eq_foldl]

theorem cmdline_action_eq (P : LogParse) (cl : Option (List Char))
    (st : BootState) :
    (parse_proc_cmdline P true cl st).2.action = st.action := by
  cases cl with
  | none => rfl
  | some line =>
    rw [cmdline_state_eq_foldl]
    induction tokenize line generalizing st with
    | nil => rfl
    | cons w ws ih => rw [List.foldl_cons, ih, word_action_eq]

/-! ### Helper lemmas: process-argument parsing -/

/-- The return code of the `getopt_long` loop does not depend on the
state it starts from (only on the argument vector and the recogniser
outcomes). -/
theorem go_code_ext (P : LogParse) (a : Bool) (args : List Arg) (b : Bool)
    (st st' : BootState) :
    (parse_argv_go P a args b st).1 = (parse_argv_go P a args b st').1 := by
  induction args generalizing b st st' with
  | nil => cases b <;> rfl
  | cons x rest ih =>
    cases x with
    | argLogLevel v =>
      cases hv : P.level v <;> simp [parse_argv_go, hv] <;> exact ih _ _ _
    | argLogTarget v =>
      cases hv : P.target v <;> simp [parse_argv_go, hv] <;> exact ih _ _ _
    | argDefault v =>
      cases a <;> simp [parse_argv_go, set_default_unit, ENOMEM] <;> exact ih _ _ _
    | argHelp => simp [parse_argv_go]; exact ih _ _ _
    | argUnknown => rfl
    | argPositional v => simp [parse_argv_go]; exact ih _ _ _

/-- Once a positional argument has been seen, the loop can only end in
`-EINVAL` (or an earlier error): the post-loop `optind < argc` check
fires. -/
theorem go_extra_neg (P : LogParse) (a : Bool) (args : List Arg)
    (st : BootState) : (parse_argv_go P a args true st).1 < 0 := by
  induction args generalizing st with
  | nil => norm_num [parse_argv_go, EINVAL]
  | cons x rest ih =>
    cases x with
    | argLogLevel v =>
      cases hv : P.level v <;> simp [parse_argv_go, hv, EINVAL]
      exact ih _
    | argLogTarget v =>
      cases hv : P.target v <;> simp [parse_argv_go, hv, EINVAL]
      exact ih _
    | argDefault v =>
      cases a <;> simp [parse_argv_go, set_default_unit, ENOMEM]
      exact ih _
    | argHelp => simp [parse_argv_go]; exact ih _
    | argUnknown => simp [parse_argv_go, EINVAL]
    | argPositional v => simp [parse_argv_go]; exact ih _

/-- An unrecognised flag anywhere in the argument vector forces a
negative return. -/
theorem go_unknown_neg (P : LogParse) (a : Bool) (args : List Arg)
    (b : Bool) (st : BootState) (h : Arg.argUnknown ∈ args) :
    (parse_argv_go P a args b st).1 < 0 := by
  induction args generalizing b st with
  | nil => cases h
  | cons x rest ih =>
    cases x with
    | argLogLevel v =>
      simp only [List.mem_cons, reduceCtorEq, false_or] at h
      cases hv : P.level v <;> simp [parse_argv_go, hv, EINVAL]
      exact ih _ _ h
    | argLogTarget v =>
      simp only [List.mem_cons, reduceCtorEq, false_or] at h
      cases hv : P.target v <;> simp [parse_argv_go, hv, EINVAL]
      exact ih _ _ h
    | argDefault v =>
      simp only [List.mem_cons, reduceCtorEq, false_or] at h
      cases a <;> simp [parse_argv_go, set_default_unit, ENOMEM]
      exact ih _ _ h
    | argHelp =>
      simp only [List.mem_cons, reduceCtorEq, false_or] at h
      simp [parse_argv_go]; exact ih _ _ h
    | argUnknown => simp [parse_argv_go, EINVAL]
    | argPositional v => simp [parse_argv_go]; exact go_extra_neg P a rest _

/-- A positional argument anywhere in the argument vector forces a
negative return ("Too many arguments"). -/
theorem go_positional_neg (P : LogParse) (a : Bool) (args : List Arg)
    (b : Bool) (st : BootState) (s : List Char)
    (h : Arg.argPositional s ∈ args) :
    (parse_argv_go P a args b st).1 < 0 := by
  induction args generalizing b st with
  | nil => cases h
  | cons x rest ih =>
    cases x with
    | argLogLevel v =>
      simp only [List.mem_cons, reduceCtorEq, false_or] at h
      cases hv : P.level v <;> simp [parse_argv_go, hv, EINVAL]
      exact ih _ _ h
    | argLogTarget v =>
      simp only [List.mem_cons, reduceCtorEq, false_or] at h
      cases hv : P.target v <;> simp [parse_argv_go, hv, EINVAL]
      exact ih _ _ h
    | argDefault v =>
      simp only [List.mem_cons, reduceCtorEq, false_or] at h
      cases a <;> simp [parse_argv_go, set_default_unit, ENOMEM]
      exact ih _ _ h
    | argHelp =>
      simp only [List.mem_cons, reduceCtorEq, false_or] at h
      simp [parse_argv_go]; exact ih _ _ h
    | argUnknown => simp [parse_argv_go, EINVAL]
    | argPositional v => simp [parse_argv_go]; exact go_extra_neg P a rest _

/-- A `--log-level=` value the recogniser rejects forces a negative
return, wherever it sits in the argument vector. -/
theorem go_loglevel_neg (P : LogParse) (a : Bool) (args : List Arg)
    (b : Bool) (st : BootState) (v : List Char)
    (hmem : Arg.argLogLevel v ∈ args) (hv : P.level v = none) :
    (parse_argv_go P a args b st).1 < 0 := by
  induction args generalizing b st with
  | nil => cases hmem
  | cons x rest ih =>
    cases x with
    | argLogLevel w =>
      rcases List.mem_cons.1 hmem with heq | hm
      · injection heq with heq
        subst heq
        simp [parse_argv_go, hv, EINVAL]
      · cases hw : P.level w <;> simp [parse_argv_go, hw, EINVAL]
        exact ih _ _ hm
    | argLogTarget w =>
      simp only [List.mem_cons, reduceCtorEq, false_or] at hmem
      cases hw : P.target w <;> simp [parse_argv_go, hw, EINVAL]
      exact ih _ _ hmem
    | argDefault w =>
      simp only [List.mem_cons, reduceCtorEq, false_or] at hmem
      cases a <;> simp [parse_argv_go, set_default_unit, ENOMEM]
      exact ih _ _ hmem
    | argHelp =>
      simp only [List.mem_cons, reduceCtorEq, false_or] at hmem
      simp [parse_argv_go]; exact ih _ _ hmem
    | argUnknown => simp [parse_argv_go, EINVAL]
    | argPositional w => simp [parse_argv_go]; exact go_extra_neg P a rest _

/-- A `--log-target=` value the recogniser rejects forces a negative
return, wherever it sits in the argument vector. -/
theorem go_logtarget_neg (P : LogParse) (a : Bool) (args : List Arg)
    (b : Bool) (st : BootState) (v : List Char)
    (hmem : Arg.argLogTarget v ∈ args) (hv : P.target v = none) :
    (parse_argv_go P a args b st).1 < 0 := by
  induction args generalizing b st with
  | nil => cases hmem
  | cons x rest ih =>
    cases x with
    | argLogLevel w =>
      simp only [List.mem_cons, reduceCtorEq, false_or] at hmem
      cases hw : P.level w <;> simp [parse_argv_go, hw, EINVAL]
      exact ih _ _ hmem
    | argLogTarget w =>
      rcases List.mem_cons.1 hmem with heq | hm
      · injection heq with heq
        subst heq
        simp [parse_argv_go, hv, EINVAL]
      · cases hw : P.target w <;> simp [parse_argv_go, hw, EINVAL]
        exact ih _ _ hm
    | argDefault w =>
      simp only [List.mem_cons, reduceCtorEq, false_or] at hmem
      cases a <;> simp [parse_argv_go, set_default_unit, ENOMEM]
      exact ih _ _ hmem
    | argHelp =>
      simp only [List.mem_cons, reduceCtorEq, false_or] at hmem
      simp [parse_argv_go]; exact ih _ _ hmem
    | argUnknown => simp [parse_argv_go, EINVAL]
    | argPositional w => simp [parse_argv_go]; exact go_extra_neg P a rest _

/-- `action = HELP`, once set, survives the rest of the loop: nothing
ever resets it. -/
theorem go_help_preserve (P : LogParse) (a : Bool) (args : List Arg)
    (b : Bool) (st : BootState) (h : st.action = Action.help) :
    (parse_argv_go P a args b st).2.action = Action.help := by
  induction args generalizing b st with
  | nil => cases b <;> simpa [parse_argv_go]
  | cons x rest ih =>
    cases x with
    | argLogLevel v => cases hv : P.level v <;> simp [parse_argv_go, hv] <;> first
        | exact h
        | exact ih _ _ h
    | argLogTarget v => cases hv : P.target v <;> simp [parse_argv_go, hv] <;> first
        | exact h
        | exact ih _ _ h
    | argDefault v =>
      cases a <;> simp [parse_argv_go, set_default_unit, ENOMEM] <;> first
        | exact h
        | exact ih _ _ h
    | argHelp => simp [parse_argv_go]; exact ih _ _ rfl
    | argUnknown => simpa [parse_argv_go]
    | argPositional v => simp [parse_argv_go]; exact ih _ _ h

/-- If the loop succeeds and `-h`/`--help` was among the arguments, the
resulting action is HELP. -/
theorem go_help_mem (P : LogParse) (a : Bool) (args : List Arg) (b : Bool)
    (st : BootState) (hmem : Arg.argHelp ∈ args)
    (hz : (parse_argv_go P a args b st).1 = 0) :
    (parse_argv_go P a args b st).2.action = Action.help := by
  induction args generalizing b st with
  | nil => cases hmem
  | cons x rest ih =>
    cases x with
    | argLogLevel v =>
      simp only [List.mem_cons, reduceCtorEq, false_or] at hmem
      cases hv : P.level v
      · norm_num [parse_argv_go, hv, EINVAL] at hz
      · rw [parse_argv_go, hv] at hz ⊢
        exact ih _ _ hmem hz
    | argLogTarget v =>
      simp only [List.mem_cons, reduceCtorEq, false_or] at hmem
      cases hv : P.target v
      · norm_num [parse_argv_go, hv, EINVAL] at hz
      · rw [parse_argv_go, hv] at hz ⊢
        exact ih _ _ hmem hz
    | argDefault v =>
      simp only [List.mem_cons, reduceCtorEq, false_or] at hmem
      cases a
      · norm_num [parse_argv_go, set_default_unit, ENOMEM] at hz
      · rw [parse_argv_go] at hz ⊢
        exact ih _ _ hmem hz
    | argHelp =>
      rw [parse_argv_go] at hz ⊢
      exact go_help_preserve P a rest b _ rfl
    | argUnknown =>
      norm_num [parse_argv_go, EINVAL] at hz
    | argPositional v =>
      rw [parse_argv_go] at hz ⊢
      exact ih _ _ (by
        rcases List.mem_cons.1 hmem with heq | hm
        · cases heq
        · exact hm) hz

/-- If the loop succeeds on a vector ending in `--default=v`, the final
`default_unit` is `v`: the last `--default` wins and nothing after it
writes the field. -/
theorem go_append_default (P : LogParse) (a : Bool) (args : List Arg)
    (b : Bool) (st : BootState) (v : List Char)
    (hz : (parse_argv_go P a (args ++ [Arg.argDefault v]) b st).1 = 0) :
    (parse_argv_go P a (args ++ [Arg.argDefault v]) b st).2.default_unit
      = v := by
  induction args generalizing b st with
  | nil =>
    cases a
    · norm_num [parse_argv_go, set_default_unit, ENOMEM] at hz
    · cases b
      · simp [parse_argv_go, set_default_unit]
      · norm_num [parse_argv_go, set_default_unit, EINVAL] at hz
  | cons x rest ih =>
    cases x with
    | argLogLevel w =>
      cases hw : P.level w
      · norm_num [parse_argv_go, hw, EINVAL] at hz
      · rw [List.cons_append, parse_argv_go, hw] at hz ⊢
        exact ih _ _ hz
    | argLogTarget w =>
      cases hw : P.target w
      · norm_num [parse_argv_go, hw, EINVAL] at hz
      · rw [List.cons_append, parse_argv_go, hw] at hz ⊢
        exact ih _ _ hz
    | argDefault w =>
      cases a
      · norm_num [List.cons_append, parse_argv_go, set_default_unit, ENOMEM] at hz
      · rw [List.cons_append, parse_argv_go] at hz ⊢
        exact ih _ _ hz
    | argHelp =>
      rw [List.cons_append, parse_argv_go] at hz ⊢
      exact ih _ _ hz
    | argUnknown =>
      norm_num [parse_argv_go, EINVAL] at hz
    | argPositional w =>
      rw [List.cons_append, parse_argv_go] at hz ⊢
      exact ih _ _ hz

/-- The loop never empties `default_unit` as long as every `--default`
value in the vector is itself non-empty. -/
theorem go_du_ne (P : LogParse) (a : Bool) (args : List Arg) (b : Bool)
    (st : BootState) (hargs : ∀ u, Arg.argDefault u ∈ args → u ≠ [])
    (h : st.default_unit ≠ []) :
    (parse_argv_go P a args b st).2.default_unit ≠ [] := by
  induction args generalizing b st with
  | nil => cases b <;> simpa [parse_argv_go]
  | cons x rest ih =>
    have hrest : ∀ u, Arg.argDefault u ∈ rest → u ≠ [] :=
      fun u hu => hargs u (List.mem_cons_of_mem _ hu)
    cases x with
    | argLogLevel v => cases hv : P.level v <;> simp [parse_argv_go, hv] <;> first
        | exact h
        | exact ih _ _ hrest h
    | argLogTarget v => cases hv : P.target v <;> simp [parse_argv_go, hv] <;> first
        | exact h
        | exact ih _ _ hrest h
    | argDefault v =>
      have hv : v ≠ [] := hargs v (List.mem_cons_self _ _)
      cases a <;> simp [parse_argv_go, set_default_unit, ENOMEM] <;> first
        | exact h
        | exact ih _ _ hrest hv
    | argHelp => simp [parse_argv_go]; exact ih _ _ hrest h
    | argUnknown => simpa [parse_argv_go]
    | argPositional v => simp [parse_argv_go]; exact ih _ _ hrest h

/-! ### Helper lemmas: `main` -/

/-- With all allocations succeeding, the first two stages of `main`
cannot fail, so `main` is the argument-parsing stage run on
`resolved_cmdline` followed by the help branch and the manager
sequence. -/
theorem main_unfold (P : LogParse) (cl : Option (List Char))
    (args : List Arg) (mo : ManagerOracle) :
    main P true cl args mo =
      (let k2 := parse_argv P true args (resolved_cmdline P cl)
       if k2.1 < 0 then ⟨1, [], k2.2⟩ else
       if k2.2.action = Action.help then ⟨0, [Event.evHelp], k2.2⟩ else
       if mo.new_r < 0 then ⟨1, [Event.evManagerNew], k2.2⟩ else
       if mo.coldplug_r < 0 then
         ⟨1, [Event.evManagerNew, Event.evColdplug], k2.2⟩ else
       if mo.load_r < 0 then
         ⟨1, [Event.evManagerNew, Event.evColdplug, Event.evLoadUnit],
          k2.2⟩ else
       if mo.add_job_r < 0 then
         ⟨1, [Event.evManagerNew, Event.evColdplug, Event.evLoadUnit,
              Event.evDumpUnits, Event.evAddJob], k2.2⟩ else
       if mo.loop_r < 0 then
         ⟨1, [Event.evManagerNew, Event.evColdplug, Event.evLoadUnit,
              Event.evDumpUnits, Event.evAddJob, Event.evDumpJobs,
              Event.evLoop], k2.2⟩ else
       ⟨0, [Event.evManagerNew, Event.evColdplug, Event.evLoadUnit,
            Event.evDumpUnits, Event.evAddJob, Event.evDumpJobs,
            Event.evLoop], k2.2⟩) := by
  have h1 : (parse_proc_cmdline P true cl
      { init_state with default_unit := SPECIAL_DEFAULT_TARGET }).1 = 0 :=
    cmdline_code_zero P cl _
  simp only [main, set_default_unit_true, resolved_cmdline]
  rw [if_neg (by norm_num), if_neg (by rw [h1]; norm_num)]

/-- The state `main` hands back is always the one resolution produced:
fallback, then kernel command line, then process arguments. -/
theorem main_final (P : LogParse) (cl : Option (List Char))
    (args : List Arg) (mo : ManagerOracle) :
    (main P true cl args mo).final =
      (parse_argv P true args (resolved_cmdline P cl)).2 := by
  rw [main_unfold]
  dsimp only
  repeat' split
  all_goals rfl

/-- If argument parsing fails, `main` exits with status 1, printing no
usage text and calling no manager facade operation. -/
theorem main_argv_fail (P : LogParse) (cl : Option (List Char))
    (args : List Arg) (mo : ManagerOracle)
    (h : (parse_argv P true args (resolved_cmdline P cl)).1 < 0) :
    main P true cl args mo =
      ⟨1, [], (parse_argv P true args (resolved_cmdline P cl)).2⟩ := by
  rw [main_unfold]
  simp only [if_pos h]

/-- If argument parsing succeeds and resolved the action to HELP, `main`
prints the usage text and exits 0 without any manager facade call. -/
theorem main_help (P : LogParse) (cl : Option (List Char))
    (args : List Arg) (mo : ManagerOracle)
    (hz : (parse_argv P true args (resolved_cmdline P cl)).1 = 0)
    (hh : (parse_argv P true args (resolved_cmdline P cl)).2.action
        = Action.help) :
    main P true cl args mo =
      ⟨0, [Event.evHelp],
       (parse_argv P true args (resolved_cmdline P cl)).2⟩ := by
  rw [main_unfold]
  rw [if_neg (by rw [hz]; norm_num), if_pos hh]

/-! ### Helper lemmas: non-emptiness of the default unit -/

theorem rlmap_lookup_ne (w t : List Char) (h : rlmap.lookup w = some t) :
    t ≠ [] := by
  simp only [rlmap, List.lookup] at h
  repeat' split at h
  all_goals first
    | (injection h with h; subst h; decide)
    | exact Option.noConfusion h

/-- One kernel command-line word never empties `default_unit`: the
`systemd.default=` remainder (after the code's 15-character skip) is
never empty, the runlevel targets are compiled-in non-empty names, and
every other branch leaves the field alone. -/
theorem word_du_ne (P : LogParse) (w : List Char) (st : BootState)
    (h : st.default_unit ≠ []) :
    (parse_proc_cmdline_word P true w st).2.default_unit ≠ [] := by
  by_cases h1 : startswith w (str "systemd.default=")
  · have hp : (str "systemd.default=") <+: w :=
      List.isPrefixOf_iff_prefix.1 h1
    have hlen : (str "systemd.default=").length ≤ w.length := hp.length_le
    have h16 : (16 : ℕ) ≤ w.length := le_trans (by decide) hlen
    simp only [parse_proc_cmdline_word, h1, if_true, set_default_unit_true]
    intro hc
    rw [List.drop_eq_nil_iff] at hc
    omega
  · by_cases h2 : startswith w (str "systemd.log_target=")
    · cases hv : P.target (w.drop 19) <;>
        simpa [parse_proc_cmdline_word, h1, h2, hv]
    · by_cases h3 : startswith w (str "systemd.log_level=")
      · cases hv : P.level (w.drop 18) <;>
          simpa [parse_proc_cmdline_word, h1, h2, h3, hv]
      · cases hr : rlmap.lookup w with
        | some t =>
          have := rlmap_lookup_ne w t hr
          simpa [parse_proc_cmdline_word, h1, h2, h3, hr, set_default_unit]
        | none =>
          simpa [parse_proc_cmdline_word, h1, h2, h3, hr]

theorem cmdline_du_ne (P : LogParse) (cl : Option (List Char))
    (st : BootState) (h : st.default_unit ≠ []) :
    (parse_proc_cmdline P true cl st).2.default_unit ≠ [] := by
  cases cl with
  | none => simpa [parse_proc_cmdline]
  | some line =>
    rw [cmdline_state_eq_foldl]
    induction tokenize line generalizing st with
    | nil => simpa
    | cons w ws ih => exact ih _ (word_du_ne P w st h)

theorem resolved_cmdline_du_ne (P : LogParse) (cl : Option (List Char)) :
    (resolved_cmdline P cl).default_unit ≠ [] :=
  cmdline_du_ne P cl _ (by decide)

/-! ### Helper lemmas: idempotence of the kernel command-line scan -/

/-- Left folds of per-element actions that, on each component observed
through `proj`, either preserve it or write a constant, themselves
either preserve the component or write a constant. -/
theorem foldl_proj_stable {α : Type} (step : BootState → List Char → BootState)
    (proj : BootState → α)
    (hstep : ∀ w, (∀ st, proj (step st w) = proj st)
      ∨ (∃ k, ∀ st, proj (step st w) = k)) :
    ∀ ws : List (List Char),
      (∀ st, proj (ws.foldl step st) = proj st)
      ∨ (∃ k, ∀ st, proj (ws.foldl step st) = k) := by
  intro ws
  induction ws with
  | nil => exact Or.inl (fun st => rfl)
  | cons w ws ih =>
    rcases ih with hp | ⟨k, hk⟩
    · rcases hstep w with hw | ⟨k, hwk⟩
      · exact Or.inl (fun st => by rw [List.foldl_cons, hp, hw])
      · exact Or.inr ⟨k, fun st => by rw [List.foldl_cons, hp, hwk]⟩
    · exact Or.inr ⟨k, fun st => by rw [List.foldl_cons, hk]⟩

theorem foldl_proj_idem {α : Type} (step : BootState → List Char → BootState)
    (proj : BootState → α)
    (hstep : ∀ w, (∀ st, proj (step st w) = proj st)
      ∨ (∃ k, ∀ st, proj (step st w) = k))
    (ws : List (List Char)) (st : BootState) :
    proj (ws.foldl step (ws.foldl step st)) = proj (ws.foldl step st) := by
  rcases foldl_proj_stable step proj hstep ws with hp | ⟨k, hk⟩
  · rw [hp]
  · rw [hk, hk]

theorem word_du_stable (P : LogParse) (w : List Char) :
    (∀ st, (parse_proc_cmdline_word P true w st).2.default_unit
        = st.default_unit)
    ∨ (∃ k, ∀ st, (parse_proc_cmdline_word P true w st).2.default_unit
        = k) := by
  rcases word_shape P w with ⟨u, h⟩ | ⟨t, h⟩ | ⟨l, h⟩ | h | h
  · exact Or.inr ⟨u, fun st => by rw [h st]⟩
  · exact Or.inl (fun st => by rw [h st])
  · exact Or.inl (fun st => by rw [h st])
  · exact Or.inl (fun st => by rw [h st])
  · exact Or.inl (fun st => by rw [h st])

theorem word_level_stable (P : LogParse) (w : List Char) :
    (∀ st, (parse_proc_cmdline_word P true w st).2.log_max_level
        = st.log_max_level)
    ∨ (∃ k, ∀ st, (parse_proc_cmdline_word P true w st).2.log_max_level
        = k) := by
  rcases word_shape P w with ⟨u, h⟩ | ⟨t, h⟩ | ⟨l, h⟩ | h | h
  · exact Or.inl (fun st => by rw [h st])
  · exact Or.inl (fun st => by rw [h st])
  · exact Or.inr ⟨some l, fun st => by rw [h st]⟩
  · exact Or.inl (fun st => by rw [h st])
  · exact Or.inl (fun st => by rw [h st])

theorem word_target_stable (P : LogParse) (w : List Char) :
    (∀ st, (parse_proc_cmdline_word P true w st).2.log_target
        = st.log_target)
    ∨ (∃ k, ∀ st, (parse_proc_cmdline_word P true w st).2.log_target
        = k) := by
  rcases word_shape P w with ⟨u, h⟩ | ⟨t, h⟩ | ⟨l, h⟩ | h | h
  · exact Or.inl (fun st => by rw [h st])
  · exact Or.inr ⟨some t, fun st => by rw [h st]⟩
  · exact Or.inl (fun st => by rw [h st])
  · exact Or.inl (fun st => by rw [h st])
  · exact Or.inl (fun st => by rw [h st])

/-! ### The claims -/

/-- C1: Precedence law — resolution applies the compiled-in default,
then the kernel command line, then the process arguments, each step
allowed to overwrite `default_unit`: (i) for every kernel command line
and every successfully parsed argument vector ending in `--default=v`,
the resolved default unit is `v`; (ii) with no directives from either
source it is the compiled-in fallback; (iii) kernel
`systemd.default=foo.target` against process argument
`--default=bar.target` resolves to `"bar.target"` — the argument
wins. -/
theorem C1_precedence (P : LogParse) :
    (∀ cl args v mo,
      (parse_argv P true (args ++ [Arg.argDefault v]) init_state).1 = 0 →
      (main P true cl (args ++ [Arg.argDefault v]) mo).final.default_unit
        = v)
    ∧ (∀ mo, (main P true (some []) ([] : List Arg) mo).final.default_unit
        = SPECIAL_DEFAULT_TARGET)
    ∧ (∀ mo, (main P true (some (str "systemd.default=foo.target"))
        [Arg.argDefault (str "bar.target")] mo).final.default_unit
        = str "bar.target") := by
  refine ⟨?_, ?_, ?_⟩
  · intro cl args v mo hz
    rw [main_final]
    have hz' : (parse_argv P true (args ++ [Arg.argDefault v])
        (resolved_cmdline P cl)).1 = 0 :=
      (go_code_ext P true (args ++ [Arg.argDefault v]) false
        (resolved_cmdline P cl) init_state).trans hz
    exact go_append_default P true args false _ v hz'
  · intro mo; rw [main_final]; rfl
  · intro mo; rw [main_final]; rfl

/-- Witness for C1 at a concrete input: the argument vector
`[--default=bar.target]` parses, and against kernel line
`systemd.default=foo.target` the resolved default unit is
`bar.target`. -/
theorem C1_witness :
    (parse_argv P0 true ([] ++ [Arg.argDefault (str "bar.target")])
      init_state).1 = 0
    ∧ (main P0 true (some (str "systemd.default=foo.target"))
        ([] ++ [Arg.argDefault (str "bar.target")]) mo0).final.default_unit
        = str "bar.target" :=
  ⟨by decide,
   (C1_precedence P0).1 (some (str "systemd.default=foo.target")) []
     (str "bar.target") mo0 (by decide)⟩

/-- C2 (amended): after resolution completes, `default_unit` is
non-empty — it starts at the compiled-in fallback and is only ever
overwritten, never cleared — PROVIDED every `--default` process
argument carries a non-empty value. (The unamended claim is false:
`--default=` with an empty value empties it, see
`C2_counterexample`.) -/
theorem C2_nonempty_default (P : LogParse) (cl : Option (List Char))
    (args : List Arg) (mo : ManagerOracle)
    (h : ∀ v, Arg.argDefault v ∈ args → v ≠ []) :
    (main P true cl args mo).final.default_unit ≠ [] := by
  rw [main_final]
  exact go_du_ne P true args false _ h (resolved_cmdline_du_ne P cl)

/-- Counterexample to C2 as stated: the process argument list
`[--default=]` (empty value) completes resolution with an empty
`default_unit`. -/
theorem C2_counterexample :
    (main P0 true (some []) [Arg.argDefault []] mo0).final.default_unit
      = [] := by decide

/-- Witness for C2 (amended) at a concrete input. -/
theorem C2_witness :
    (main P0 true (some (str "quiet 3")) [Arg.argDefault (str "x")]
      mo0).final.default_unit ≠ [] :=
  C2_nonempty_default P0 (some (str "quiet 3")) [Arg.argDefault (str "x")]
    mo0 (by
      intro v hv
      rw [List.mem_singleton] at hv
      injection hv with hv
      subst hv
      decide)

/-- C3: the kernel command-line scan succeeds on every readable text
when no allocation fails: (i) the overall return code is 0 for every
line; (ii) a `systemd.log_level=` token whose value the recogniser
rejects only increments the warning count, leaving everything else
unchanged, and the scan continues; (iii) likewise for
`systemd.log_target=`; (iv) a token matching no recognised key prefix
and no `rlmap` entry is ignored without error, the state — in
particular `default_unit` — left untouched. -/
theorem C3_kernel_cmdline_tolerant (P : LogParse) :
    (∀ line st, (parse_proc_cmdline P true (some line) st).1 = 0)
    ∧ (∀ v st, P.level v = none →
        parse_proc_cmdline_word P true (str "systemd.log_level=" ++ v) st
          = (0, { st with warnings := st.warnings + 1 }))
    ∧ (∀ v st, P.target v = none →
        parse_proc_cmdline_word P true (str "systemd.log_target=" ++ v) st
          = (0, { st with warnings := st.warnings + 1 }))
    ∧ (∀ w st, startswith w (str "systemd.default=") = false →
        startswith w (str "systemd.log_target=") = false →
        startswith w (str "systemd.log_level=") = false →
        rlmap.lookup w = none →
        parse_proc_cmdline_word P true w st = (0, st)) := by
  refine ⟨fun line st => cmdline_code_zero P (some line) st, ?_, ?_, ?_⟩
  · intro v st hv
    have h1 : startswith (str "systemd.log_level=" ++ v)
        (str "systemd.default=") = false := rfl
    have h2 : startswith (str "systemd.log_level=" ++ v)
        (str "systemd.log_target=") = false := rfl
    have hpre : startswith (str "systemd.log_level=" ++ v)
        (str "systemd.log_level=") = true :=
      List.isPrefixOf_iff_prefix.2 (List.prefix_append _ _)
    have hd : (str "systemd.log_level=" ++ v).drop 18 = v := by
      have h18 : (str "systemd.log_level=").length = 18 := rfl
      rw [← h18]
      exact List.drop_left _ _
    simp [parse_proc_cmdline_word, h1, h2, hpre, hd, hv]
  · intro v st hv
    have h1 : startswith (str "systemd.log_target=" ++ v)
        (str "systemd.default=") = false := rfl
    have hpre : startswith (str "systemd.log_target=" ++ v)
        (str "systemd.log_target=") = true :=
      List.isPrefixOf_iff_prefix.2 (List.prefix_append _ _)
    have hd : (str "systemd.log_target=" ++ v).drop 19 = v := by
      have h19 : (str "systemd.log_target=").length = 19 := rfl
      rw [← h19]
      exact List.drop_left _ _
    simp [parse_proc_cmdline_word, h1, hpre, hd, hv]
  · intro w st hna hnt hnl hnr
    simp [parse_proc_cmdline_word, hna, hnt, hnl, hnr]

/-- Witness for C3 at concrete inputs: `systemd.log_level=not-a-level`
only warns, and the unrecognised token `quiet` is ignored outright. -/
theorem C3_witness :
    parse_proc_cmdline_word P0 true
        (str "systemd.log_level=" ++ str "not-a-level") init_state
      = (0, { init_state with warnings := init_state.warnings + 1 })
    ∧ parse_proc_cmdline_word P0 true (str "quiet") init_state
      = (0, init_state) :=
  ⟨(C3_kernel_cmdline_tolerant P0).2.1 (str "not-a-level") init_state
     (by decide),
   (C3_kernel_cmdline_tolerant P0).2.2.2 (str "quiet") init_state
     (by decide) (by decide) (by decide) (by decide)⟩

/-- C4: an argument vector containing `--log-level=V` with `V` not a
recognised level (or symmetrically `--log-target=V`) makes argument
resolution return a negative code from any state, and `main` then exits
with status 1 without invoking `manager_new` (or any later bootstrap
step). -/
theorem C4_bad_log_arg_fatal (P : LogParse) (cl : Option (List Char))
    (args : List Arg) (mo : ManagerOracle) (v : List Char)
    (h : (Arg.argLogLevel v ∈ args ∧ P.level v = none)
       ∨ (Arg.argLogTarget v ∈ args ∧ P.target v = none)) :
    (∀ st, (parse_argv P true args st).1 < 0)
    ∧ (main P true cl args mo).status = 1
    ∧ Event.evManagerNew ∉ (main P true cl args mo).trace := by
  have hneg : ∀ st, (parse_argv P true args st).1 < 0 := by
    intro st
    rcases h with ⟨hm, hv⟩ | ⟨hm, hv⟩
    · exact go_loglevel_neg P true args false st v hm hv
    · exact go_logtarget_neg P true args false st v hm hv
  rw [main_argv_fail P cl args mo (hneg _)]
  exact ⟨hneg, rfl, List.not_mem_nil _⟩

/-- Witness for C4 at a concrete input: `--log-level=not-a-level`. -/
theorem C4_witness :
    Arg.argLogLevel (str "not-a-level") ∈
        [Arg.argLogLevel (str "not-a-level")]
    ∧ P0.level (str "not-a-level") = none
    ∧ ((main P0 true (some []) [Arg.argLogLevel (str "not-a-level")]
        mo0).status = 1
       ∧ Event.evManagerNew ∉ (main P0 true (some [])
          [Arg.argLogLevel (str "not-a-level")] mo0).trace) :=
  ⟨by decide, by decide,
   (C4_bad_log_arg_fatal P0 (some []) [Arg.argLogLevel (str "not-a-level")]
      mo0 (str "not-a-level") (Or.inl ⟨by decide, by decide⟩)).2⟩

/-- C5: if the argument vector parses successfully and contains
`-h`/`--help`, `main` prints the usage text and exits 0, and
`manager_new` is never invoked. -/
theorem C5_help_short_circuits (P : LogParse) (cl : Option (List Char))
    (args : List Arg) (mo : ManagerOracle)
    (hmem : Arg.argHelp ∈ args)
    (hz : (parse_argv P true args init_state).1 = 0) :
    (main P true cl args mo).status = 0
    ∧ (main P true cl args mo).trace = [Event.evHelp]
    ∧ Event.evManagerNew ∉ (main P true cl args mo).trace := by
  have hz' : (parse_argv P true args (resolved_cmdline P cl)).1 = 0 :=
    (go_code_ext P true args false (resolved_cmdline P cl)
      init_state).trans hz
  have hh := go_help_mem P true args false (resolved_cmdline P cl) hmem hz'
  rw [main_help P cl args mo hz' hh]
  exact ⟨rfl, rfl, show Event.evManagerNew ∉ [Event.evHelp] by decide⟩

/-- Witness for C5 at a concrete input: the argument vector `[-h]`. -/
theorem C5_witness :
    Arg.argHelp ∈ ([Arg.argHelp] : List Arg)
    ∧ (parse_argv P0 true [Arg.argHelp] init_state).1 = 0
    ∧ ((main P0 true (some []) [Arg.argHelp] mo0).status = 0
       ∧ (main P0 true (some []) [Arg.argHelp] mo0).trace = [Event.evHelp]
       ∧ Event.evManagerNew ∉ (main P0 true (some []) [Arg.argHelp]
          mo0).trace) :=
  ⟨by decide, by decide,
   C5_help_short_circuits P0 (some []) [Arg.argHelp] mo0 (by decide)
     (by decide)⟩

/-- C6: resolving the same kernel command-line text twice (the second
run starting from the configuration the first produced) yields the same
boot configuration — default unit, log level, log target, and action —
as resolving it once: every token's effect is a plain overwrite. -/
theorem C6_idempotent (P : LogParse) (line : List Char) (st : BootState) :
    ((parse_proc_cmdline P true (some line)
        (parse_proc_cmdline P true (some line) st).2).2.default_unit
      = (parse_proc_cmdline P true (some line) st).2.default_unit)
    ∧ ((parse_proc_cmdline P true (some line)
        (parse_proc_cmdline P true (some line) st).2).2.log_max_level
      = (parse_proc_cmdline P true (some line) st).2.log_max_level)
    ∧ ((parse_proc_cmdline P true (some line)
        (parse_proc_cmdline P true (some line) st).2).2.log_target
      = (parse_proc_cmdline P true (some line) st).2.log_target)
    ∧ ((parse_proc_cmdline P true (some line)
        (parse_proc_cmdline P true (some line) st).2).2.action
      = (parse_proc_cmdline P true (some line) st).2.action) := by
  refine ⟨?_, ?_, ?_, cmdline_action_eq P (some line) _⟩
  · simp only [cmdline_state_eq_foldl]
    exact foldl_proj_idem _ _ (word_du_stable P) (tokenize line) st
  · simp only [cmdline_state_eq_foldl]
    exact foldl_proj_idem _ _ (word_level_stable P) (tokenize line) st
  · simp only [cmdline_state_eq_foldl]
    exact foldl_proj_idem _ _ (word_target_stable P) (tokenize line) st

/-- C7: the SysV runlevel tokens map exactly as the `rlmap` table says:
`single`, `-s`, `s`, `S`, `1` set the runlevel-1 target, `2`..`5` the
corresponding runlevel-2..5 targets, and a kernel command line
consisting of the token `3` alone resolves the default unit to the
runlevel-3 target. -/
theorem C7_runlevel_map (P : LogParse) :
    (∀ st, (parse_proc_cmdline_word P true (str "single") st).2.default_unit
        = SPECIAL_RUNLEVEL1_TARGET)
    ∧ (∀ st, (parse_proc_cmdline_word P true (str "-s") st).2.default_unit
        = SPECIAL_RUNLEVEL1_TARGET)
    ∧ (∀ st, (parse_proc_cmdline_word P true (str "s") st).2.default_unit
        = SPECIAL_RUNLEVEL1_TARGET)
    ∧ (∀ st, (parse_proc_cmdline_word P true (str "S") st).2.default_unit
        = SPECIAL_RUNLEVEL1_TARGET)
    ∧ (∀ st, (parse_proc_cmdline_word P true (str "1") st).2.default_unit
        = SPECIAL_RUNLEVEL1_TARGET)
    ∧ (∀ st, (parse_proc_cmdline_word P true (str "2") st).2.default_unit
        = SPECIAL_RUNLEVEL2_TARGET)
    ∧ (∀ st, (parse_proc_cmdline_word P true (str "3") st).2.default_unit
        = SPECIAL_RUNLEVEL3_TARGET)
    ∧ (∀ st, (parse_proc_cmdline_word P true (str "4") st).2.default_unit
        = SPECIAL_RUNLEVEL4_TARGET)
    ∧ (∀ st, (parse_proc_cmdline_word P true (str "5") st).2.default_unit
        = SPECIAL_RUNLEVEL5_TARGET)
    ∧ (∀ st, (parse_proc_cmdline P true (some (str "3")) st).2.default_unit
        = SPECIAL_RUNLEVEL3_TARGET) :=
  ⟨fun st => rfl, fun st => rfl, fun st => rfl, fun st => rfl,
   fun st => rfl, fun st => rfl, fun st => rfl, fun st => rfl,
   fun st => rfl, fun st => rfl⟩

/-- C8: error atomicity of `set_default_unit` — on allocation failure it
returns `-ENOMEM` and the whole state, in particular `default_unit`, is
exactly what it was (the copy is made before the old value is
released). -/
theorem C8_set_default_unit_atomic (a : Bool) (u : List Char)
    (st : BootState) (h : (set_default_unit a u st).1 < 0) :
    (set_default_unit a u st).1 = -ENOMEM
    ∧ (set_default_unit a u st).2 = st := by
  cases a
  · exact ⟨rfl, rfl⟩
  · norm_num [set_default_unit] at h

/-- Witness for C8 at a concrete input: a failing allocation. -/
theorem C8_witness :
    (set_default_unit false (str "x") init_state).1 < 0
    ∧ ((set_default_unit false (str "x") init_state).1 = -ENOMEM
       ∧ (set_default_unit false (str "x") init_state).2 = init_state) :=
  ⟨by decide,
   C8_set_default_unit_atomic false (str "x") init_state (by decide)⟩

/-- C9: `-h` does not shield later argument errors — an argument vector
containing `-h` together with an unrecognised flag or a leftover
positional argument still fails to parse from any state, so `main`
exits with status 1 and prints nothing (no usage text). -/
theorem C9_help_no_shield (P : LogParse) (cl : Option (List Char))
    (args : List Arg) (mo : ManagerOracle)
    (hmem : Arg.argHelp ∈ args)
    (hbad : Arg.argUnknown ∈ args ∨ ∃ s, Arg.argPositional s ∈ args) :
    (∀ st, (parse_argv P true args st).1 < 0)
    ∧ (main P true cl args mo).status = 1
    ∧ (main P true cl args mo).trace = [] := by
  have hneg : ∀ st, (parse_argv P true args st).1 < 0 := by
    intro st
    rcases hbad with hu | ⟨s, hs⟩
    · exact go_unknown_neg P true args false st hu
    · exact go_positional_neg P true args false st s hs
  rw [main_argv_fail P cl args mo (hneg _)]
  exact ⟨hneg, rfl, rfl⟩

/-- Witness for C9 at a concrete input: `-h` followed by an
unrecognised flag. -/
theorem C9_witness :
    Arg.argHelp ∈ ([Arg.argHelp, Arg.argUnknown] : List Arg)
    ∧ ((main P0 true (some []) [Arg.argHelp, Arg.argUnknown] mo0).status
        = 1
       ∧ (main P0 true (some []) [Arg.argHelp, Arg.argUnknown]
          mo0).trace = []) :=
  ⟨by decide,
   (C9_help_no_shield P0 (some []) [Arg.argHelp, Arg.argUnknown] mo0
      (by decide) (Or.inl (by decide))).2⟩

/-- C10: evaluation of the code at the claim's inputs. Cross-key
last-write-wins does hold — in `systemd.default=foo.target 3` the later
runlevel token wins — but for `3 systemd.default=foo.target` the code
resolves the default unit to `"=foo.target"`, not `"foo.target"`: the
`systemd.default=` branch skips only 15 of the 16 characters of its key
(main.c:71, `word + 15`), unlike the log_target/log_level branches
which skip their keys exactly (19 and 18). -/
theorem C10_eval_off_by_one :
    (parse_proc_cmdline P0 true
        (some (str "systemd.default=foo.target 3"))
        init_state).2.default_unit = SPECIAL_RUNLEVEL3_TARGET
    ∧ (parse_proc_cmdline P0 true
        (some (str "3 systemd.default=foo.target"))
        init_state).2.default_unit = str "=foo.target" :=
  ⟨by decide, by decide⟩

end Systemd
